import Mathlib

/-!
Shallow embedding of the ads CRUD API (`src/project/ads/views.py`) and proofs of
the specification claims about it.

The repository ships only `views.py`; the Django models (`ads/models.py`,
`users/models.py`), the settings (`TOTAL_ON_PAGE`), and the framework
collaborators (ORM lookups, `Paginator`, file storage, `full_clean`) are not in
the sources.  The record schemas are therefore taken from the spec's data-model
section, the framework collaborators are modelled by explicit functions, and the
view handlers themselves are translated line by line from `views.py`.
-/

namespace AdsApi

/-- Modelled from the spec: `users/models.py` is not in the sources; the spec
consumes only `{id, first_name, role}` of a User, with `role` a string. -/
structure User where
  id : Nat
  first_name : String
  role : String
deriving Repr, DecidableEq

/-- Modelled from the spec: `ads/models.py` is not in the sources; a Category is
`{id : integer, name : string}`. -/
structure Category where
  id : Nat
  name : String
deriving Repr, DecidableEq

/-- Modelled from the spec: `ads/models.py` is not in the sources; an Ad is
`{id, name, author_id, price, description, is_published, category_id,
image_ref : optional blob reference}`.  `price` (a decimal in the spec) is
modelled as an integer: no claim does arithmetic on it, only ordering. -/
structure Ad where
  id : Nat
  name : String
  author_id : Nat
  price : Int
  description : String
  is_published : Bool
  category_id : Nat
  image : Option String
deriving Repr, DecidableEq

/-- The relational store backing the views: users, categories and ads, plus the
auto-increment primary-key counters the store assigns on insert. -/
structure Db where
  users : List User
  categories : List Category
  ads : List Ad
  nextCategoryId : Nat
  nextAdId : Nat
deriving Repr, DecidableEq

/-- `get_object_or_404(User, pk=pk, role=role)`: the user with the given
primary key and role, if any. -/
def findUser (db : Db) (pk : Nat) (role : String) : Option User :=
  db.users.find? (fun u => u.id == pk && u.role == role)

/-- `get_object_or_404(Category, pk=pk)` / `CategoryDetailView.get_object`. -/
def findCategory (db : Db) (pk : Nat) : Option Category :=
  db.categories.find? (fun c => c.id == pk)

/-- `get_object_or_404(Ad, pk=pk)` / `AdDetailView.get_object`. -/
def findAd (db : Db) (pk : Nat) : Option Ad :=
  db.ads.find? (fun a => a.id == pk)

/-- Modelled from the spec: the file-storage collaborator "store blob, return
URL" (`image.url`); the stored blob reference resolves to a retrievable URL. -/
def mediaUrl (ref : String) : String := "/media/" ++ ref

/-- The JSON shape `{id, name}` returned for a single Category. -/
structure CategoryResponse where
  id : Nat
  name : String
deriving Repr, DecidableEq

/-- One element of the `CategoryListView` response: `{id, name, ads_number}`. -/
structure CategoryListItem where
  id : Nat
  name : String
  ads_number : Nat
deriving Repr, DecidableEq

/-- `Count('ad')`: the number of ads whose `category_id` references the given
category primary key. -/
def adsCount (db : Db) (cid : Nat) : Nat :=
  (db.ads.filter (fun a => a.category_id == cid)).length

/-- The `order_by('name')` comparison used by `CategoryListView`. -/
def catNameLe (a b : Category) : Prop := a.name ≤ b.name

instance : DecidableRel catNameLe :=
  fun a b => inferInstanceAs (Decidable (a.name ≤ b.name))

instance : IsTotal Category catNameLe := ⟨fun a b => le_total a.name b.name⟩

instance : IsTrans Category catNameLe := ⟨fun _ _ _ h1 h2 => le_trans h1 h2⟩

/-- `CategoryListView.get`: all categories, annotated with `num_ads` and ordered
ascending by name, serialized as `{id, name, ads_number}`. -/
def listCategories (db : Db) : List CategoryListItem :=
  (List.insertionSort catNameLe db.categories).map
    (fun c => { id := c.id, name := c.name, ads_number := adsCount db c.id })

/-- `CategoryCreateView.post`: build `Category(name=...)`, `save()` (the store
assigns the next primary key), and return `{id, name}`.  The handler performs no
validation and has no error branch. -/
def createCategory (db : Db) (name : String) : CategoryResponse × Db :=
  let c : Category := { id := db.nextCategoryId, name := name }
  ({ id := c.id, name := c.name },
   { db with categories := db.categories ++ [c],
             nextCategoryId := db.nextCategoryId + 1 })

/-- Modelled from the spec: `Category.full_clean` (the model is not in the
sources); the spec's invariant is "name non-empty (enforced by validation)", so
validation fails exactly on an empty name, with a field-to-messages mapping. -/
def categoryFullClean (c : Category) : Option (List String) :=
  if c.name = "" then some ["This field cannot be blank."] else none

/-- Outcome of `CategoryUpdateView.post`: 404, 422 with the message dict, or 200
with `{id, name}`. -/
inductive CatUpdateResult where
  | notFound
  | validationError (errors : List String)
  | ok (r : CategoryResponse)
deriving Repr, DecidableEq

/-- `CategoryUpdateView.post`: `super().post` fetches the object (404 if
absent; the form it processes sees an empty POST for a JSON body and saves
nothing), then the name from the JSON body is assigned, `full_clean` is run
(422 with the message dict on failure, nothing saved), else `save()` persists
and `{id, name}` is returned. -/
def updateCategory (db : Db) (pk : Nat) (name : String) : CatUpdateResult × Db :=
  match findCategory db pk with
  | none => (.notFound, db)
  | some c =>
    let c' : Category := { c with name := name }
    match categoryFullClean c' with
    | some errs => (.validationError errs, db)
    | none =>
      (.ok { id := c'.id, name := c'.name },
       { db with categories :=
           db.categories.map (fun x => if x.id == pk then c' else x) })

/-- The full Ad JSON representation produced by the ad views:
`{id, name, author_id, author (= author.first_name), price, description,
is_published, category_id, image (url or null)}`. -/
structure AdResponse where
  id : Nat
  name : String
  author_id : Nat
  author : String
  price : Int
  description : String
  is_published : Bool
  category_id : Nat
  image : Option String
deriving Repr, DecidableEq

/-- Serialization of one Ad: resolves `ad.author.first_name` through the author
foreign key (`none` when the referenced user is absent, which in the source
raises and produces a server error) and renders `image.url if image else None`. -/
def adToResponse (db : Db) (a : Ad) : Option AdResponse :=
  (db.users.find? (fun u => u.id == a.author_id)).map (fun u =>
    { id := a.id, name := a.name, author_id := a.author_id,
      author := u.first_name, price := a.price, description := a.description,
      is_published := a.is_published, category_id := a.category_id,
      image := a.image.map mediaUrl })

/-- Serialization of a list of ads (the loop in `AdListView.get`); fails as a
whole when any author foreign key is dangling. -/
def renderAds (db : Db) : List Ad → Option (List AdResponse)
  | [] => some []
  | a :: rest =>
    match adToResponse db a, renderAds db rest with
    | some r, some rs => some (r :: rs)
    | _, _ => none

/-- The `order_by('-price')` comparison used by `AdListView`. -/
def adPriceDesc (a b : Ad) : Prop := b.price ≤ a.price

instance : DecidableRel adPriceDesc :=
  fun a b => inferInstanceAs (Decidable (b.price ≤ a.price))

instance : IsTotal Ad adPriceDesc := ⟨fun a b => le_total b.price a.price⟩

instance : IsTrans Ad adPriceDesc := ⟨fun _ _ _ h1 h2 => le_trans h2 h1⟩

/-- Modelled from the spec: `Paginator.num_pages` of the framework collaborator
("paginate"), for page size `per > 0`: the ceiling of `count / per`, and at
least 1 even for an empty list (the first page may be empty). -/
def numPages (count per : Nat) : Nat := (max 1 count + per - 1) / per

/-- Modelled from the spec: `Paginator.get_page` clamps the requested page
number into range: below 1 or beyond the last page yields the last page. -/
def getPageNumber (np : Nat) (page : Int) : Nat :=
  if page < 1 then np else if page > (np : Int) then np else page.toNat

/-- Modelled from the spec: the object list of page `p` (1-based) with page
size `per`: the slice `[(p-1)*per, p*per)` of the ordered list. -/
def pageItems (l : List Ad) (per p : Nat) : List Ad :=
  (l.drop ((p - 1) * per)).take per

/-- The `{items, total, num_pages}` response of `AdListView.get`. -/
structure AdListResponse where
  items : List AdResponse
  total : Nat
  num_pages : Nat
deriving Repr, DecidableEq

/-- `AdListView.get`: orders all ads by descending price, reads
`page = int(request.GET.get('page', 0))` (so `page` here is the already-parsed
integer, 0 when the parameter is absent), pages only when `page` is truthy
(nonzero), and returns `{items, total, num_pages}` where `total` counts all ads
and `num_pages` comes from the paginator in both modes.  `per` stands for
`settings.TOTAL_ON_PAGE`, which is not in the sources. -/
def listAds (per : Nat) (db : Db) (page : Int) : Option AdListResponse :=
  let sorted := List.insertionSort adPriceDesc db.ads
  let np := numPages db.ads.length per
  let obj := if page ≠ 0 then pageItems sorted per (getPageNumber np page) else sorted
  match renderAds db obj with
  | none => none
  | some items => some { items := items, total := db.ads.length, num_pages := np }

/-- The JSON body of `AdCreateView.post`.  `author_id` is read with a required
subscript, `category_id` with `.get` (absent resolves to no category, hence
404).  `name`, `price` and `description` are the spec's required create
arguments.  The two `is_*` fields record the value of the JSON key when the key
is present: the source reads `bool(ad_data.get('is_bublished'))` — note the
spelling — and never reads the key `is_published`. -/
structure AdCreatePayload where
  name : String
  author_id : Nat
  category_id : Option Nat
  price : Int
  description : String
  is_published : Option Bool
  is_bublished : Option Bool
deriving Repr, DecidableEq

/-- Outcome of the mutating ad views: 404, 422, or 200 with the full
representation (`none` inside `ok` when rendering the saved object fails on a
dangling author foreign key, a server error in the source). -/
inductive AdResult where
  | notFound
  | validationError
  | ok (r : Option AdResponse)
deriving Repr, DecidableEq

/-- `AdCreateView.post`: requires a User with `pk=author_id` and `role='admin'`
(404 otherwise) and a Category with `pk=category_id` (404 otherwise), then
builds and saves the Ad with `is_published = bool(ad_data.get('is_bublished'))`
and no image, and returns the full representation. -/
def createAd (db : Db) (p : AdCreatePayload) : AdResult × Db :=
  match findUser db p.author_id "admin" with
  | none => (.notFound, db)
  | some author =>
    match p.category_id.bind (findCategory db) with
    | none => (.notFound, db)
    | some category =>
      let ad : Ad :=
        { id := db.nextAdId, name := p.name, author_id := author.id,
          price := p.price, description := p.description,
          is_published := p.is_bublished.getD false,
          category_id := category.id, image := none }
      (.ok (some
        { id := ad.id, name := ad.name, author_id := ad.author_id,
          author := author.first_name, price := ad.price,
          description := ad.description, is_published := ad.is_published,
          category_id := ad.category_id, image := none }),
       { db with ads := db.ads ++ [ad], nextAdId := db.nextAdId + 1 })

/-- `AdDetailView.get`: fetch by primary key (404 if absent) and serialize. -/
def getAd (db : Db) (pk : Nat) : Option AdResponse :=
  (findAd db pk).bind (adToResponse db)

/-- The JSON body of `AdUpdateView.post`.  `author_id` and `category_id` are
read with `.get` and used only for the two `get_object_or_404` lookups;
`name`, `price` and `description` carry the key's value when the key is
present; `hasAuthor` and `hasCategory` record whether the keys `author` and
`category` are present (their values are never read: the looked-up moderator
and category are assigned instead). -/
structure AdUpdatePayload where
  author_id : Option Nat
  category_id : Option Nat
  name : Option String
  hasAuthor : Bool
  price : Option Int
  description : Option String
  hasCategory : Bool
deriving Repr, DecidableEq

/-- `AdUpdateView.post`: `super().post` fetches the Ad (404 if absent; its form
sees an empty POST for a JSON body and saves nothing), then a User with
`role='moderator'` and `pk=ad_data.get('author_id')` and a Category with
`pk=ad_data.get('category_id')` are fetched unconditionally (404 on either
failure), then exactly the keys present among `name, author, price,
description, category` are applied, `full_clean` runs (`clean` is the Ad
validation hook, whose rules are not in the sources; 422 and nothing saved on
failure), else `save()` persists and the full representation is returned. -/
def updateAd (clean : Ad → Bool) (db : Db) (pk : Nat) (p : AdUpdatePayload) :
    AdResult × Db :=
  match findAd db pk with
  | none => (.notFound, db)
  | some ad0 =>
    match p.author_id.bind (fun i =>
        db.users.find? (fun u => u.id == i && u.role == "moderator")) with
    | none => (.notFound, db)
    | some author =>
      match p.category_id.bind (findCategory db) with
      | none => (.notFound, db)
      | some category =>
        let a1 := { ad0 with name := p.name.getD ad0.name }
        let a2 := if p.hasAuthor then { a1 with author_id := author.id } else a1
        let a3 := { a2 with price := p.price.getD a2.price }
        let a4 := { a3 with description := p.description.getD a3.description }
        let a5 := if p.hasCategory then { a4 with category_id := category.id } else a4
        if clean a5 then
          (.ok (adToResponse db a5),
           { db with ads := db.ads.map (fun x => if x.id == pk then a5 else x) })
        else (.validationError, db)

/-- `AdUploadImageView.post`: `super().post` fetches the Ad (404 if absent),
`request.FILES['image']` is assigned as the image reference, `full_clean` runs
(422 and nothing saved on failure), else `save()` persists and the full
representation (with the resolved image URL) is returned. -/
def uploadAdImage (clean : Ad → Bool) (db : Db) (pk : Nat) (blob : String) :
    AdResult × Db :=
  match findAd db pk with
  | none => (.notFound, db)
  | some ad0 =>
    let a1 := { ad0 with image := some blob }
    if clean a1 then
      (.ok (adToResponse db a1),
       { db with ads := db.ads.map (fun x => if x.id == pk then a1 else x) })
    else (.validationError, db)

/-! Helper lemmas -/

/-- Replacing, in a list, every element satisfying `q` by a fixed element `new`
that itself satisfies `q` makes `new` the first element satisfying `q`,
provided some element satisfied `q` before.  This is how `save()` on a fetched
object updates the row found by a primary-key lookup. -/
theorem find?_replace {α : Type} (q : α → Bool) (new : α) (hnew : q new = true)
    (l : List α) (old : α) (h : l.find? q = some old) :
    (l.map (fun x => if q x then new else x)).find? q = some new := by
  induction l with
  | nil => simp [List.find?] at h
  | cons a t ih =>
    by_cases hq : q a = true
    · simp [List.find?, hq, hnew]
    · have hq' : q a = false := by simp [hq]
      simp only [List.find?, hq'] at h
      simp [List.find?, hq', ih h]

/-! Claim theorems -/

/-- C8: `listCategories` returns all categories ordered ascending by name, each
annotated with the count of ads referencing it; it never fails (it is a total
function), and on an empty store it returns the empty sequence. -/
theorem listCategories_spec (db : Db) :
    (listCategories db).Pairwise (fun x y => x.name ≤ y.name)
    ∧ (∀ item ∈ listCategories db,
        item.ads_number = (db.ads.filter (fun a => a.category_id == item.id)).length)
    ∧ List.Perm ((listCategories db).map CategoryListItem.id)
        (db.categories.map Category.id)
    ∧ (listCategories db).length = db.categories.length
    ∧ (db.categories = [] → listCategories db = []) := by
  refine ⟨?_, ?_, ?_, ?_, ?_⟩
  · have hs : (List.insertionSort catNameLe db.categories).Pairwise catNameLe :=
      List.sorted_insertionSort catNameLe db.categories
    rw [listCategories, List.pairwise_map]
    exact hs
  · intro item hitem
    rw [listCategories, List.mem_map] at hitem
    obtain ⟨c, _, rfl⟩ := hitem
    rfl
  · rw [listCategories, List.map_map]
    have := (List.perm_insertionSort catNameLe db.categories).map Category.id
    simpa using this
  · rw [listCategories, List.length_map, List.length_insertionSort]
  · intro h
    simp [listCategories, h, List.insertionSort]

def dbEmpty : Db :=
  { users := [], categories := [], ads := [], nextCategoryId := 1, nextAdId := 1 }

def dbC8 : Db :=
  { users := [], categories := [{ id := 1, name := "electronics" }],
    ads := [{ id := 1, name := "tv", author_id := 1, price := 5, description := "d",
              is_published := true, category_id := 1, image := none },
            { id := 2, name := "radio", author_id := 1, price := 3, description := "e",
              is_published := false, category_id := 1, image := none }],
    nextCategoryId := 2, nextAdId := 3 }

/-- C8 witness: the specification instantiated on concrete stores, with the
membership hypothesis discharged on a concrete item and the empty-store clause
discharged on the empty store. -/
theorem listCategories_spec_witness :
    ({ id := 1, name := "electronics", ads_number := 2 } : CategoryListItem).ads_number
      = (dbC8.ads.filter (fun a => a.category_id == 1)).length
    ∧ listCategories dbEmpty = [] :=
  ⟨(listCategories_spec dbC8).2.1 { id := 1, name := "electronics", ads_number := 2 }
      (by decide),
   (listCategories_spec dbEmpty).2.2.2.2 rfl⟩

/-- C3 counterexample: creating a Category with an empty name — which violates
the spec's non-empty-name invariant, as the modelled validation confirms — does
not fail with a 422 validation error: the handler inserts the record and
returns `{id, name}` with the empty name. -/
theorem createCategory_empty_name_inserted :
    (createCategory dbEmpty "").1 = { id := 1, name := "" }
    ∧ (createCategory dbEmpty "").2.categories = [{ id := 1, name := "" }]
    ∧ categoryFullClean { id := 1, name := "" } ≠ none := by
  refine ⟨rfl, rfl, ?_⟩
  simp [categoryFullClean]

/-- C3 amended: `createCategory(name)` inserts a record with the given name and
returns `{id, name}` unconditionally; the handler performs no validation, so
even a name violating the non-empty-name invariant is inserted and returned
with status 200 (the 422 validation path exists only in `updateCategory`). -/
theorem createCategory_spec (db : Db) (name : String) :
    (createCategory db name).1.name = name
    ∧ (createCategory db name).1.id = db.nextCategoryId
    ∧ ((createCategory db name).2.categories.map Category.name)
        = db.categories.map Category.name ++ [name]
    ∧ (createCategory db name).2.ads = db.ads
    ∧ (createCategory db name).2.users = db.users := by
  refine ⟨rfl, rfl, ?_, rfl, rfl⟩
  simp [createCategory]

/-- C6: `updateCategory` fetches the Category by id (404 if absent), sets the
name, and on a validation violation (an empty name) fails with 422 while
leaving the store — hence the persisted name — unchanged; otherwise it persists
the new name and returns `{id, name}`. -/
theorem updateCategory_spec (db : Db) (pk : Nat) (name : String) :
    (findCategory db pk = none → updateCategory db pk name = (.notFound, db))
    ∧ (∀ c, findCategory db pk = some c → name = "" →
        updateCategory db pk name
          = (.validationError ["This field cannot be blank."], db))
    ∧ (∀ c, findCategory db pk = some c → name ≠ "" →
        (updateCategory db pk name).1 = .ok { id := c.id, name := name }
        ∧ findCategory (updateCategory db pk name).2 pk
            = some { c with name := name }) := by
  refine ⟨?_, ?_, ?_⟩
  · intro h
    simp [updateCategory, h]
  · intro c hc hname
    simp [updateCategory, hc, categoryFullClean, hname]
  · intro c hc hname
    have hc' : db.categories.find? (fun x => x.id == pk) = some c := hc
    have hcq := List.find?_some hc' 
    constructor
    · simp [updateCategory, hc, categoryFullClean, hname]
    · have hrepl := find?_replace (fun x => x.id == pk) { c with name := name }
        (by simpa using hcq) db.categories c hc'
      simp only [updateCategory, hc, categoryFullClean, hname, if_neg hname]
      simpa [findCategory, updateCategory, hc, categoryFullClean, hname]
        using hrepl

def dbC6 : Db :=
  { users := [], categories := [{ id := 1, name := "books" }], ads := [],
    nextCategoryId := 2, nextAdId := 1 }

/-- C6 witness: the specification instantiated on a concrete store: a missing
id gives 404, an empty name gives 422 with the store unchanged, and a valid
name is persisted and echoed. -/
theorem updateCategory_spec_witness :
    updateCategory dbC6 2 "x" = (.notFound, dbC6)
    ∧ updateCategory dbC6 1 ""
        = (.validationError ["This field cannot be blank."], dbC6)
    ∧ (updateCategory dbC6 1 "toys").1 = .ok { id := 1, name := "toys" }
    ∧ findCategory (updateCategory dbC6 1 "toys").2 1
        = some { id := 1, name := "toys" } :=
  ⟨(updateCategory_spec dbC6 2 "x").1 rfl,
   (updateCategory_spec dbC6 1 "").2.1 { id := 1, name := "books" } rfl rfl,
   ((updateCategory_spec dbC6 1 "toys").2.2 { id := 1, name := "books" } rfl
      (by decide)).1,
   ((updateCategory_spec dbC6 1 "toys").2.2 { id := 1, name := "books" } rfl
      (by decide)).2⟩

/-- Existence characterization of the role-gated user lookup. -/
theorem findUser_isSome_iff (db : Db) (pk : Nat) (role : String) :
    (findUser db pk role).isSome ↔ ∃ u ∈ db.users, u.id = pk ∧ u.role = role := by
  simp [findUser, List.find?_isSome]

/-- Existence characterization of the category lookup. -/
theorem findCategory_isSome_iff (db : Db) (pk : Nat) :
    (findCategory db pk).isSome ↔ ∃ c ∈ db.categories, c.id = pk := by
  simp [findCategory, List.find?_isSome]

/-- C4: `createAd` succeeds exactly when the payload's `author_id` resolves to
an existing User with role "admin" and the payload's `category_id` is present
and resolves to an existing Category; on either failure it returns 404 and the
store is unchanged (no Ad inserted); on success exactly one Ad is inserted. -/
theorem createAd_spec (db : Db) (p : AdCreatePayload) :
    ((createAd db p).1 ≠ .notFound ↔
      (∃ u ∈ db.users, u.id = p.author_id ∧ u.role = "admin")
      ∧ (∃ cid, p.category_id = some cid ∧ ∃ c ∈ db.categories, c.id = cid))
    ∧ ((createAd db p).1 = .notFound → (createAd db p).2 = db)
    ∧ ((createAd db p).1 ≠ .notFound →
        (createAd db p).2.ads.length = db.ads.length + 1) := by
  have hu := findUser_isSome_iff db p.author_id "admin"
  rcases hfu : findUser db p.author_id "admin" with _ | u
  · rw [hfu] at hu
    simp only [Option.isSome_none, Bool.false_eq_true, false_iff] at hu
    refine ⟨?_, ?_, ?_⟩
    · simp only [createAd, hfu]
      constructor
      · intro h; exact absurd rfl h
      · rintro ⟨h1, _⟩; exact absurd h1 hu
    · intro _; simp [createAd, hfu]
    · intro h
      exact absurd (show (createAd db p).1 = .notFound by simp [createAd, hfu]) h
  · rcases hfc : p.category_id.bind (findCategory db) with _ | cat
    · refine ⟨?_, ?_, ?_⟩
      · simp only [createAd, hfu, hfc]
        constructor
        · intro h; exact absurd rfl h
        · rintro ⟨_, cid, hcid, hex⟩
          have : (findCategory db cid).isSome :=
            (findCategory_isSome_iff db cid).2 hex
          rw [hcid] at hfc
          simp only [Option.some_bind] at hfc
          rw [hfc] at this
          simp at this
      · intro _; simp [createAd, hfu, hfc]
      · intro h
        exact absurd
          (show (createAd db p).1 = .notFound by simp [createAd, hfu, hfc]) h
    · refine ⟨?_, ?_, ?_⟩
      · simp only [createAd, hfu, hfc]
        constructor
        · intro _
          constructor
          · rw [hfu] at hu
            simpa using hu.1 rfl
          · rcases hcid : p.category_id with _ | cid
            · rw [hcid] at hfc; simp at hfc
            · rw [hcid] at hfc
              simp only [Option.some_bind] at hfc
              exact ⟨cid, rfl, (findCategory_isSome_iff db cid).1 (by simp [hfc])⟩
        · intro _; simp
      · intro h; simp [createAd, hfu, hfc] at h
      · intro _; simp [createAd, hfu, hfc]

def dbAds : Db :=
  { users := [{ id := 1, first_name := "Ann", role := "admin" },
              { id := 2, first_name := "Mia", role := "moderator" },
              { id := 3, first_name := "Bob", role := "member" }],
    categories := [{ id := 7, name := "cars" }],
    ads := [{ id := 1, name := "bmw", author_id := 1, price := 100,
              description := "fast", is_published := true, category_id := 7,
              image := none }],
    nextCategoryId := 8, nextAdId := 2 }

/-- C4 witness: with a non-admin author id the store is unchanged; with an
admin author and an existing category exactly one Ad is inserted. -/
theorem createAd_spec_witness :
    (createAd dbAds { name := "vaz", author_id := 3, category_id := some 7,
                      price := 5, description := "slow", is_published := none,
                      is_bublished := none }).2 = dbAds
    ∧ (createAd dbAds { name := "vaz", author_id := 1, category_id := some 7,
                        price := 5, description := "slow", is_published := none,
                        is_bublished := none }).2.ads.length
        = dbAds.ads.length + 1 :=
  ⟨(createAd_spec dbAds _).2.1 rfl,
   (createAd_spec dbAds _).2.2 (by decide)⟩

/-- C9: `createAd` derives the stored `is_published` flag from the payload key
`is_bublished`; a payload that carries the key `is_published` (with any
value) but not `is_bublished` yields an Ad with `is_published = false`, both in
the returned representation and in every newly stored Ad. -/
theorem createAd_is_bublished_spelling (db : Db) (p : AdCreatePayload)
    (_hpub : p.is_published.isSome) (hbub : p.is_bublished = none) :
    (∀ resp, (createAd db p).1 = .ok (some resp) → resp.is_published = false)
    ∧ (∀ a ∈ (createAd db p).2.ads, a ∈ db.ads ∨ a.is_published = false) := by
  rcases hfu : findUser db p.author_id "admin" with _ | u
  · constructor
    · intro resp h; simp [createAd, hfu] at h
    · intro a ha; exact Or.inl (by simpa [createAd, hfu] using ha)
  · rcases hfc : p.category_id.bind (findCategory db) with _ | cat
    · constructor
      · intro resp h; simp [createAd, hfu, hfc] at h
      · intro a ha; exact Or.inl (by simpa [createAd, hfu, hfc] using ha)
    · constructor
      · intro resp h
        simp only [createAd, hfu, hfc, AdResult.ok.injEq, Option.some.injEq] at h
        rw [← h, hbub]
        rfl
      · intro a ha
        simp only [createAd, hfu, hfc, List.mem_append, List.mem_singleton] at ha
        rcases ha with ha | rfl
        · exact Or.inl ha
        · right; rw [hbub]; rfl

/-- C9 witness: a concrete create payload submitting `is_published = true`
without the misspelled key produces a representation with
`is_published = false`. -/
theorem createAd_is_bublished_spelling_witness :
    ({ id := 2, name := "vaz", author_id := 1, author := "Ann", price := 5,
       description := "slow", is_published := false, category_id := 7,
       image := none } : AdResponse).is_published = false :=
  (createAd_is_bublished_spelling dbAds
      { name := "vaz", author_id := 1, category_id := some 7, price := 5,
        description := "slow", is_published := some true, is_bublished := none }
      (by decide) rfl).1 _ rfl

/-- C2 (code bug at the failing input): creating an Ad whose payload submits
`is_published = true` (and no `is_bublished` key) and fetching it back gives a
representation that matches the submitted name, author_id, price, description
and category_id, with a null image — but `is_published` is `false`, not the
submitted `true`, because the source reads the misspelled key `is_bublished`. -/
theorem createAd_roundTrip_bug :
    ∃ r, (createAd dbAds
            { name := "vaz", author_id := 1, category_id := some 7, price := 5,
              description := "slow", is_published := some true,
              is_bublished := none }).1 = .ok (some r)
    ∧ getAd (createAd dbAds
            { name := "vaz", author_id := 1, category_id := some 7, price := 5,
              description := "slow", is_published := some true,
              is_bublished := none }).2 2 = some r
    ∧ r.name = "vaz" ∧ r.author_id = 1 ∧ r.price = 5
    ∧ r.description = "slow" ∧ r.category_id = 7 ∧ r.image = none
    ∧ r.is_published = false := by
  refine ⟨{ id := 2, name := "vaz", author_id := 1, author := "Ann", price := 5,
            description := "slow", is_published := false, category_id := 7,
            image := none }, rfl, rfl, rfl, rfl, rfl, rfl, rfl, rfl, rfl⟩

/-- Rendering a list of ads succeeds exactly elementwise. -/
theorem renderAds_forall₂ (db : Db) :
    ∀ l rs, renderAds db l = some rs →
      List.Forall₂ (fun a r => adToResponse db a = some r) l rs := by
  intro l
  induction l with
  | nil =>
    intro rs h
    simp only [renderAds, Option.some.injEq] at h
    subst h
    exact List.Forall₂.nil
  | cons a t ih =>
    intro rs h
    simp only [renderAds] at h
    rcases hr : adToResponse db a with _ | r
    · rw [hr] at h; simp at h
    · rcases ht : renderAds db t with _ | rs'
      · rw [hr, ht] at h; simp at h
      · rw [hr, ht] at h
        simp only [Option.some.injEq] at h
        subst h
        exact List.Forall₂.cons hr (ih rs' ht)

/-- Mapping both sides of an elementwise relation by compatible functions gives
equal lists. -/
theorem forall₂_map_eq {α β γ : Type} (f : α → γ) (g : β → γ)
    {R : α → β → Prop} (hR : ∀ a b, R a b → f a = g b) :
    ∀ {l₁ : List α} {l₂ : List β}, List.Forall₂ R l₁ l₂ → l₁.map f = l₂.map g := by
  intro l₁ l₂ h
  induction h with
  | nil => rfl
  | cons hab _ ih => simp only [List.map, hR _ _ hab, ih]

/-- Serialization preserves the price. -/
theorem adToResponse_price {db : Db} {a : Ad} {r : AdResponse}
    (h : adToResponse db a = some r) : r.price = a.price := by
  rcases hf : db.users.find? (fun u => u.id == a.author_id) with _ | u
  · rw [adToResponse, hf] at h; simp at h
  · rw [adToResponse, hf] at h
    simp only [Option.map_some', Option.some.injEq] at h
    rw [← h]

/-- Serialization preserves the primary key. -/
theorem adToResponse_id {db : Db} {a : Ad} {r : AdResponse}
    (h : adToResponse db a = some r) : r.id = a.id := by
  rcases hf : db.users.find? (fun u => u.id == a.author_id) with _ | u
  · rw [adToResponse, hf] at h; simp at h
  · rw [adToResponse, hf] at h
    simp only [Option.map_some', Option.some.injEq] at h
    rw [← h]

/-- Serialization renders the image reference as its URL. -/
theorem adToResponse_image {db : Db} {a : Ad} {r : AdResponse}
    (h : adToResponse db a = some r) : r.image = a.image.map mediaUrl := by
  rcases hf : db.users.find? (fun u => u.id == a.author_id) with _ | u
  · rw [adToResponse, hf] at h; simp at h
  · rw [adToResponse, hf] at h
    simp only [Option.map_some', Option.some.injEq] at h
    rw [← h]

/-- The paginator produces at least one page. -/
theorem numPages_pos (n per : Nat) (hper : 0 < per) : 1 ≤ numPages n per := by
  rw [numPages]
  have h3 : 1 ≤ max 1 n := le_max_left 1 n
  have h4 : per ≤ max 1 n + per - 1 := by omega
  have := (Nat.le_div_iff_mul_le hper).2 (by omega : 1 * per ≤ max 1 n + per - 1)
  exact this

/-- All elements fit in `numPages` pages of size `per`. -/
theorem le_numPages_mul (n per : Nat) (hper : 0 < per) :
    n ≤ numPages n per * per := by
  rw [numPages]
  have h3 : 1 ≤ max 1 n := le_max_left 1 n
  set a := max 1 n + per - 1 with ha
  have h1 := Nat.div_add_mod a per
  have h2 := Nat.mod_lt a hper
  have hlt : a < (a / per + 1) * per := by
    calc a = per * (a / per) + a % per := h1.symm
      _ < per * (a / per) + per := by omega
      _ = (a / per + 1) * per := by ring
  have hge : a + 1 - per ≤ a / per * per := by
    have : a < a / per * per + per := by
      calc a < (a / per + 1) * per := hlt
        _ = a / per * per + per := by ring
    omega
  have hn : n ≤ a + 1 - per := by omega
  exact le_trans hn hge

/-- C5: `listAds` returns ads ordered by descending price; with a truthy `page`
parameter it returns at most `per` (= `settings.TOTAL_ON_PAGE`) items, and with
`page` absent (0) it returns the full set; in both modes the response carries
the total count of all ads and a page count covering them all. -/
theorem listAds_spec (per : Nat) (db : Db) (page : Int) (r : AdListResponse)
    (hper : 0 < per) (h : listAds per db page = some r) :
    r.total = db.ads.length
    ∧ 1 ≤ r.num_pages
    ∧ db.ads.length ≤ r.num_pages * per
    ∧ r.items.Pairwise (fun x y => y.price ≤ x.price)
    ∧ (page ≠ 0 → r.items.length ≤ per)
    ∧ (page = 0 → List.Perm (r.items.map AdResponse.id) (db.ads.map Ad.id)) := by
  have hsorted : (List.insertionSort adPriceDesc db.ads).Pairwise adPriceDesc :=
    List.sorted_insertionSort adPriceDesc db.ads
  simp only [listAds] at h
  by_cases hpage : page = 0
  · rw [if_neg (not_not_intro hpage)] at h
    rcases hobj : renderAds db (List.insertionSort adPriceDesc db.ads) with _ | items
    · rw [hobj] at h; simp at h
    · rw [hobj] at h
      simp only [Option.some.injEq] at h
      subst h
      have hf := renderAds_forall₂ db _ _ hobj
      have hpr : (List.insertionSort adPriceDesc db.ads).map Ad.price
          = items.map AdResponse.price :=
        forall₂_map_eq Ad.price AdResponse.price
          (fun a b hab => (adToResponse_price hab).symm) hf
      have hid : (List.insertionSort adPriceDesc db.ads).map Ad.id
          = items.map AdResponse.id :=
        forall₂_map_eq Ad.id AdResponse.id
          (fun a b hab => (adToResponse_id hab).symm) hf
      refine ⟨rfl, numPages_pos _ _ hper, le_numPages_mul _ _ hper, ?_, ?_, ?_⟩
      · have h1 : ((List.insertionSort adPriceDesc db.ads).map Ad.price).Pairwise
            (fun x y : Int => y ≤ x) := List.pairwise_map.2 hsorted
        rw [hpr] at h1
        exact List.pairwise_map.1 h1
      · intro hc; exact absurd hpage hc
      · intro _
        rw [← hid]
        exact ((List.perm_insertionSort adPriceDesc db.ads).map Ad.id)
  · rw [if_pos hpage] at h
    rcases hobj : renderAds db (pageItems (List.insertionSort adPriceDesc db.ads)
        per (getPageNumber (numPages db.ads.length per) page)) with _ | items
    · rw [hobj] at h; simp at h
    · rw [hobj] at h
      simp only [Option.some.injEq] at h
      subst h
      have hf := renderAds_forall₂ db _ _ hobj
      have hsub : List.Sublist (pageItems (List.insertionSort adPriceDesc db.ads)
          per (getPageNumber (numPages db.ads.length per) page))
          (List.insertionSort adPriceDesc db.ads) :=
        List.Sublist.trans (List.take_sublist _ _) (List.drop_sublist _ _)
      have hpw : (pageItems (List.insertionSort adPriceDesc db.ads)
          per (getPageNumber (numPages db.ads.length per) page)).Pairwise adPriceDesc :=
        hsorted.sublist hsub
      have hpr := forall₂_map_eq Ad.price AdResponse.price
        (fun a b hab => (adToResponse_price hab).symm) hf
      refine ⟨rfl, numPages_pos _ _ hper, le_numPages_mul _ _ hper, ?_, ?_, ?_⟩
      · have h1 : ((pageItems (List.insertionSort adPriceDesc db.ads)
            per (getPageNumber (numPages db.ads.length per) page)).map Ad.price).Pairwise
            (fun x y : Int => y ≤ x) := List.pairwise_map.2 hpw
        rw [hpr] at h1
        exact List.pairwise_map.1 h1
      · intro _
        have hlen : items.length = (pageItems (List.insertionSort adPriceDesc db.ads)
            per (getPageNumber (numPages db.ads.length per) page)).length :=
          hf.length_eq.symm
        rw [hlen, pageItems]
        exact List.length_take_le _ _
      · intro hc; exact absurd hc hpage

/-- C5 witness: on a concrete one-ad store with page size 2 and `page=1`, the
page holds at most 2 items and the response carries the total. -/
theorem listAds_spec_witness :
    ({ items := [{ id := 1, name := "bmw", author_id := 1, author := "Ann",
                   price := 100, description := "fast", is_published := true,
                   category_id := 7, image := none }],
       total := 1, num_pages := 1 } : AdListResponse).items.length ≤ 2
    ∧ ({ items := [{ id := 1, name := "bmw", author_id := 1, author := "Ann",
                     price := 100, description := "fast", is_published := true,
                     category_id := 7, image := none }],
         total := 1, num_pages := 1 } : AdListResponse).total = dbAds.ads.length :=
  ⟨(listAds_spec 2 dbAds 1
      { items := [{ id := 1, name := "bmw", author_id := 1, author := "Ann",
                    price := 100, description := "fast", is_published := true,
                    category_id := 7, image := none }],
        total := 1, num_pages := 1 } (by decide) rfl).2.2.2.2.1 (by decide),
   (listAds_spec 2 dbAds 1
      { items := [{ id := 1, name := "bmw", author_id := 1, author := "Ann",
                    price := 100, description := "fast", is_published := true,
                    category_id := 7, image := none }],
        total := 1, num_pages := 1 } (by decide) rfl).1⟩

/-- Spec-side characterization of the partial update: exactly the payload keys
present among `{name, author, price, description, category}` are applied to the
fetched ad (author/category taking the looked-up moderator/category), and every
other field — `id`, `is_published`, `image` — is left unchanged. -/
def applyAdUpdate (ad0 : Ad) (u : User) (c : Category) (p : AdUpdatePayload) : Ad :=
  { id := ad0.id, name := p.name.getD ad0.name,
    author_id := if p.hasAuthor then u.id else ad0.author_id,
    price := p.price.getD ad0.price,
    description := p.description.getD ad0.description,
    is_published := ad0.is_published,
    category_id := if p.hasCategory then c.id else ad0.category_id,
    image := ad0.image }

/-- The sequential conditional assignments of `AdUpdateView.post` collapse to
`applyAdUpdate` once all three lookups succeed. -/
theorem updateAd_eq_of_found (clean : Ad → Bool) (db : Db) (pk : Nat)
    (p : AdUpdatePayload) (ad0 : Ad) (u : User) (c : Category)
    (h : findAd db pk = some ad0)
    (hu : p.author_id.bind (fun i =>
        db.users.find? (fun v => v.id == i && v.role == "moderator")) = some u)
    (hc : p.category_id.bind (findCategory db) = some c) :
    updateAd clean db pk p =
      (if clean (applyAdUpdate ad0 u c p) then
        (.ok (adToResponse db (applyAdUpdate ad0 u c p)),
         { db with ads := db.ads.map (fun x => if x.id == pk then applyAdUpdate ad0 u c p else x) })
      else (.validationError, db)) := by
  cases hA : p.hasAuthor <;> cases hC : p.hasCategory <;>
    simp [updateAd, h, hu, hc, hA, hC, applyAdUpdate]

/-- C1: on an existing Ad, `updateAd` resolves a moderator from the payload's
`author_id` and a Category from `category_id` unconditionally — whatever fields
the payload carries — and returns 404 with the store unchanged when either
lookup fails; when both succeed, exactly the payload keys present among
`{name, author, price, description, category}` are applied (as `applyAdUpdate`)
and persisted when validation passes, while a validation failure returns 422
with the store unchanged. -/
theorem updateAd_spec (clean : Ad → Bool) (db : Db) (pk : Nat)
    (p : AdUpdatePayload) (ad0 : Ad) (h : findAd db pk = some ad0) :
    ((p.author_id.bind (fun i =>
        db.users.find? (fun v => v.id == i && v.role == "moderator")) = none
      ∨ p.category_id.bind (findCategory db) = none) →
      updateAd clean db pk p = (.notFound, db))
    ∧ (∀ u c,
        p.author_id.bind (fun i =>
          db.users.find? (fun v => v.id == i && v.role == "moderator")) = some u →
        p.category_id.bind (findCategory db) = some c →
        (clean (applyAdUpdate ad0 u c p) = true →
          (updateAd clean db pk p).1 = .ok (adToResponse db (applyAdUpdate ad0 u c p))
          ∧ findAd (updateAd clean db pk p).2 pk = some (applyAdUpdate ad0 u c p))
        ∧ (clean (applyAdUpdate ad0 u c p) = false →
          updateAd clean db pk p = (.validationError, db))) := by
  constructor
  · intro hor
    rcases hor with h1 | h2
    · simp [updateAd, h, h1]
    · rcases ha : p.author_id.bind (fun i =>
          db.users.find? (fun v => v.id == i && v.role == "moderator")) with _ | u
      · simp [updateAd, h, ha]
      · simp [updateAd, h, ha, h2]
  · intro u c hu hc
    have h2 : db.ads.find? (fun x => x.id == pk) = some ad0 := h
    have hkey := List.find?_some h2
    rw [updateAd_eq_of_found clean db pk p ad0 u c h hu hc]
    constructor
    · intro hcl
      rw [if_pos hcl]
      refine ⟨rfl, ?_⟩
      exact find?_replace (fun x => x.id == pk) (applyAdUpdate ad0 u c p)
        (by simpa [applyAdUpdate] using hkey) db.ads ad0 h2
    · intro hcl
      rw [if_neg (by simp [hcl])]

/-- C1 witness: on the concrete store, a name-only payload whose `author_id`
names a non-moderator is rejected with 404; a payload with the `author` key and
a moderator `author_id` persists exactly the name and author fields. -/
theorem updateAd_spec_witness :
    updateAd (fun _ => true) dbAds 1
        { author_id := some 1, category_id := some 7, name := some "x",
          hasAuthor := false, price := none, description := none,
          hasCategory := false } = (.notFound, dbAds)
    ∧ findAd (updateAd (fun _ => true) dbAds 1
        { author_id := some 2, category_id := some 7, name := some "audi",
          hasAuthor := true, price := none, description := none,
          hasCategory := false }).2 1
        = some { id := 1, name := "audi", author_id := 2, price := 100,
                 description := "fast", is_published := true, category_id := 7,
                 image := none } :=
  ⟨(updateAd_spec (fun _ => true) dbAds 1
      { author_id := some 1, category_id := some 7, name := some "x",
        hasAuthor := false, price := none, description := none,
        hasCategory := false }
      { id := 1, name := "bmw", author_id := 1, price := 100,
        description := "fast", is_published := true, category_id := 7,
        image := none } rfl).1 (Or.inl rfl),
   (((updateAd_spec (fun _ => true) dbAds 1
      { author_id := some 2, category_id := some 7, name := some "audi",
        hasAuthor := true, price := none, description := none,
        hasCategory := false }
      { id := 1, name := "bmw", author_id := 1, price := 100,
        description := "fast", is_published := true, category_id := 7,
        image := none } rfl).2
      { id := 2, first_name := "Mia", role := "moderator" }
      { id := 7, name := "cars" } rfl rfl).1 rfl).2⟩

/-- C10: when the payload carries neither the `author` nor the `category` key —
even though it supplies `author_id` and `category_id` for the lookups — the
stored ad's `author_id` and `category_id` are unchanged by `updateAd`, whatever
branch the request takes. -/
theorem updateAd_author_category_frame (clean : Ad → Bool) (db : Db) (pk : Nat)
    (p : AdUpdatePayload) (hA : p.hasAuthor = false) (hC : p.hasCategory = false)
    (ad0 : Ad) (h : findAd db pk = some ad0)
    (ad' : Ad) (h' : findAd (updateAd clean db pk p).2 pk = some ad') :
    ad'.author_id = ad0.author_id ∧ ad'.category_id = ad0.category_id := by
  rcases ha : p.author_id.bind (fun i =>
      db.users.find? (fun v => v.id == i && v.role == "moderator")) with _ | u
  · have hdb : (updateAd clean db pk p).2 = db := by simp [updateAd, h, ha]
    rw [hdb, h] at h'
    injection h' with he
    rw [← he]
    exact ⟨rfl, rfl⟩
  · rcases hcx : p.category_id.bind (findCategory db) with _ | c
    · have hdb : (updateAd clean db pk p).2 = db := by simp [updateAd, h, ha, hcx]
      rw [hdb, h] at h'
      injection h' with he
      rw [← he]
      exact ⟨rfl, rfl⟩
    · rw [updateAd_eq_of_found clean db pk p ad0 u c h ha hcx] at h'
      by_cases hcl : clean (applyAdUpdate ad0 u c p) = true
      · rw [if_pos hcl] at h'
        have h2 : db.ads.find? (fun x => x.id == pk) = some ad0 := h
        have hkey := List.find?_some h2
        have hrepl := find?_replace (fun x => x.id == pk) (applyAdUpdate ad0 u c p)
          (by simpa [applyAdUpdate] using hkey) db.ads ad0 h2
        have h'' : (db.ads.map (fun x => if x.id == pk then applyAdUpdate ad0 u c p
            else x)).find? (fun x => x.id == pk) = some ad' := h'
        rw [hrepl] at h''
        injection h'' with he
        rw [← he]
        constructor
        · simp [applyAdUpdate, hA]
        · simp [applyAdUpdate, hC]
      · rw [if_neg hcl] at h'
        have h'' : findAd db pk = some ad' := h'
        rw [h] at h''
        injection h'' with he
        rw [← he]
        exact ⟨rfl, rfl⟩

/-- C10 witness: a concrete payload supplying `author_id` (a moderator) and
`category_id` but no `author`/`category` keys leaves the stored ad's author and
category untouched. -/
theorem updateAd_author_category_frame_witness :
    ({ id := 1, name := "kia", author_id := 1, price := 100,
       description := "fast", is_published := true, category_id := 7,
       image := none } : Ad).author_id = 1
    ∧ ({ id := 1, name := "kia", author_id := 1, price := 100,
         description := "fast", is_published := true, category_id := 7,
         image := none } : Ad).category_id = 7 :=
  updateAd_author_category_frame (fun _ => true) dbAds 1
    { author_id := some 2, category_id := some 7, name := some "kia",
      hasAuthor := false, price := none, description := none,
      hasCategory := false } rfl rfl
    { id := 1, name := "bmw", author_id := 1, price := 100,
      description := "fast", is_published := true, category_id := 7,
      image := none } rfl
    { id := 1, name := "kia", author_id := 1, price := 100,
      description := "fast", is_published := true, category_id := 7,
      image := none } rfl

/-- C7: `uploadAdImage` fetches the Ad by id (404 if absent), sets its image
reference, fails with 422 and an unchanged store on a validation violation, and
otherwise persists and returns the representation whose image is the resolved
(non-null) URL of the uploaded blob, which a subsequent fetch also reports. -/
theorem uploadAdImage_spec (clean : Ad → Bool) (db : Db) (pk : Nat) (blob : String) :
    (findAd db pk = none → uploadAdImage clean db pk blob = (.notFound, db))
    ∧ (∀ ad0, findAd db pk = some ad0 →
        (clean { ad0 with image := some blob } = false →
          uploadAdImage clean db pk blob = (.validationError, db))
        ∧ (clean { ad0 with image := some blob } = true →
          (uploadAdImage clean db pk blob).1
              = .ok (adToResponse db { ad0 with image := some blob })
          ∧ (∀ resp, adToResponse db { ad0 with image := some blob } = some resp →
              resp.image = some (mediaUrl blob))
          ∧ (∀ resp, getAd (uploadAdImage clean db pk blob).2 pk = some resp →
              resp.image = some (mediaUrl blob)))) := by
  constructor
  · intro h
    simp [uploadAdImage, h]
  · intro ad0 h
    have h2 : db.ads.find? (fun x => x.id == pk) = some ad0 := h
    have hkey := List.find?_some h2
    constructor
    · intro hcl
      simp [uploadAdImage, h, hcl]
    · intro hcl
      have heq : uploadAdImage clean db pk blob
          = (.ok (adToResponse db { ad0 with image := some blob }),
             { db with ads := db.ads.map (fun x => if x.id == pk then
                 { ad0 with image := some blob } else x) }) := by
        simp [uploadAdImage, h, hcl]
      refine ⟨by rw [heq], ?_, ?_⟩
      · intro resp hr
        rw [adToResponse_image hr]
        rfl
      · intro resp hr
        have hrepl := find?_replace (fun x => x.id == pk)
          { ad0 with image := some blob } (by simpa using hkey) db.ads ad0 h2
        rw [heq] at hr
        simp only [getAd] at hr
        have hfind : findAd
            { db with ads := db.ads.map (fun x => if x.id == pk then
                { ad0 with image := some blob } else x) } pk
            = some { ad0 with image := some blob } := hrepl
        rw [hfind] at hr
        simp only [Option.some_bind] at hr
        rw [adToResponse_image hr]
        rfl

/-- C7 witness: uploading a blob to the concrete store's ad 1 with a passing
validation hook makes the subsequent fetch report the resolved URL. -/
theorem uploadAdImage_spec_witness :
    ({ id := 1, name := "bmw", author_id := 1, author := "Ann", price := 100,
       description := "fast", is_published := true, category_id := 7,
       image := some "/media/pic.jpg" } : AdResponse).image
      = some (mediaUrl "pic.jpg") :=
  (((uploadAdImage_spec (fun _ => true) dbAds 1 "pic.jpg").2
      { id := 1, name := "bmw", author_id := 1, price := 100,
        description := "fast", is_published := true, category_id := 7,
        image := none } rfl).2 rfl).2.2
    { id := 1, name := "bmw", author_id := 1, author := "Ann", price := 100,
      description := "fast", is_published := true, category_id := 7,
      image := some "/media/pic.jpg" } rfl

end AdsApi
